import Mathlib

/-!
Verification of the pad capability registry and peripheral-binding validator
of the `imxrt-iomuxc` i.MX RT 1060 pad module.

The data model (pads, capability tuples, module kinds/instances, signal
roles, directions) follows the repository's pad subsystem.  The matcher,
batch binder, input-select resolver and register programmer are modelled
from the specification, since their code lives in peripheral modules
(`adc`, `flexpwm`, `lpi2c`, `lpspi`, `lpuart`, `sai`) and generated pad
data that are referenced by `src/imxrt1060/mod.rs` but not shipped with it.
The GPIO bank base-address table is embedded directly from the `bases`
module of `src/imxrt1060/mod.rs`.
-/

/-- Peripheral family.  Embeds the six peripheral modules declared in
`src/imxrt1060/mod.rs` lines 91-96: `adc`, `flexpwm`, `lpi2c`, `lpspi`,
`lpuart`, `sai`. -/
inductive ModuleKind where
  | uart
  | i2c
  | spi
  | pwm
  | sai
  | adc
deriving DecidableEq, Repr

/-- Name of the Rust module realizing a peripheral family in
`src/imxrt1060/mod.rs`. -/
def moduleName : ModuleKind → String
  | .uart => "lpuart"
  | .i2c => "lpi2c"
  | .spi => "lpspi"
  | .pwm => "flexpwm"
  | .sai => "sai"
  | .adc => "adc"

/-- Modelled from the spec: the six peripheral families supported by the
pad capability registry (spec section 3, "Module-kind"). -/
def allModuleKinds : List ModuleKind :=
  [.uart, .i2c, .spi, .pwm, .sai, .adc]

/-- Modelled from the spec: a concrete unit of a peripheral family
(e.g. UART number 1 versus UART number 2). -/
structure ModuleInstance where
  kind : ModuleKind
  index : Nat
deriving DecidableEq, Repr

/-- Modelled from the spec: a named function within a peripheral protocol
(spec section 3, "Signal-role"). -/
inductive Role where
  | tx
  | rx
  | scl
  | sda
  | sck
  | sdi
  | sdo
  | frameSync
  | pwmOutput
  | analogChannel
deriving DecidableEq, Repr

/-- Modelled from the spec: signal direction of a capability tuple; analog
channels have no direction, which the matcher realizes by ignoring the
direction field for analog roles. -/
inductive Direction where
  | input
  | output
  | bidirectional
deriving DecidableEq, Repr

/-- Whether a role is an analog role, which the matcher treats as
direction-free. -/
def isAnalog : Role → Bool
  | .analogChannel => true
  | _ => false

/-- Modelled from the spec: one function a pad can perform, as a
(module-instance, role, direction, alternate-function-selector,
optional input-select-value) record (spec section 3, "Capability Tuple";
the module kind is carried inside the module instance). -/
structure CapabilityTuple where
  moduleInstance : ModuleInstance
  role : Role
  direction : Direction
  altSelector : Nat
  inputSelect : Option Nat
deriving DecidableEq, Repr

/-- GPIO register bank, matching the seven banks of the `bases` module in
`src/imxrt1060/mod.rs` lines 100-108. -/
inductive Bank where
  | emc
  | adB0
  | adB1
  | b0
  | b1
  | sdB0
  | sdB1
deriving DecidableEq, Repr

/-- Modelled from the spec: a physical package pin with its identity
(bank plus index) and its fixed ordered list of capability tuples
(spec section 3, "Pad"). -/
structure Pad where
  bank : Bank
  index : Nat
  caps : List CapabilityTuple
deriving DecidableEq, Repr

/-- Identity of a pad: bank plus index. -/
abbrev PadId := Bank × Nat

/-- Identity of a pad value. -/
def padId (p : Pad) : PadId := (p.bank, p.index)

/-- Pad descriptor table contract: the ordered capability sequence of a
pad (spec section 4.1). -/
def capabilities (p : Pad) : List CapabilityTuple := p.caps

/-- Mux base address and pad-configuration base address of one GPIO bank,
as given to `define_base!` in `src/imxrt1060/mod.rs`. -/
structure BaseAddresses where
  mux : Nat
  cfg : Nat
deriving DecidableEq, Repr

/-- The base-address table of `src/imxrt1060/mod.rs` lines 100-108, in
source order. -/
def bases : List (Bank × BaseAddresses) :=
  [ (.emc, ⟨0x401F8014, 0x401F8204⟩)
  , (.adB0, ⟨0x401F80BC, 0x401F82AC⟩)
  , (.adB1, ⟨0x401F80FC, 0x401F82EC⟩)
  , (.b0, ⟨0x401F813C, 0x401F832C⟩)
  , (.b1, ⟨0x401F817C, 0x401F836C⟩)
  , (.sdB0, ⟨0x401F81BC, 0x401F83AC⟩)
  , (.sdB1, ⟨0x401F81D4, 0x401F83C4⟩) ]

/-- Modelled from the spec: whether a tuple satisfies a match request;
role, module-instance and direction must all equal the requested values,
except that analog roles ignore direction (spec section 4.2). -/
def capMatches (t : CapabilityTuple) (r : Role) (m : ModuleInstance)
    (d : Direction) : Bool :=
  decide (t.role = r) && decide (t.moduleInstance = m) &&
    (isAnalog r || decide (t.direction = d))

/-- Modelled from the spec: the capability matcher
`match(pad, role, module-instance, direction)` of spec section 4.2; scans
the pad's capability tuples and selects the first qualifying one, `none`
standing for `NoMatch`. -/
def matchCap (p : Pad) (r : Role) (m : ModuleInstance) (d : Direction) :
    Option CapabilityTuple :=
  p.caps.find? (fun t => capMatches t r m d)

/-- Modelled from the spec: the typed failures of the batch binder
(spec section 4.2). -/
inductive BindingError where
  | UnsupportedFunction
  | ModuleMismatch
  | DuplicateRole
  | IncompleteBinding
deriving DecidableEq, Repr

/-- Modelled from the spec: the per-role outcome in a Resolved Binding:
the chosen pad, its role, the alternate-function selector and the
optional input-select value (spec section 3, "Resolved Binding"). -/
structure Assignment where
  pad : Pad
  role : Role
  altSelector : Nat
  inputSelect : Option Nat
deriving DecidableEq, Repr

/-- Modelled from the spec: the validated result of `bind`
(spec section 3, "Resolved Binding"). -/
structure ResolvedBinding where
  moduleInstance : ModuleInstance
  assignments : List Assignment
deriving DecidableEq, Repr

/-- The resolution of one request pair during `bind`: the pad, the
requested role and the capability tuple found for it. -/
structure Resolution where
  pad : Pad
  role : Role
  tuple : CapabilityTuple
deriving DecidableEq, Repr

/-- Modelled from the spec: within `bind` a pad resolves a requested role
through the first capability tuple carrying that role. -/
def findRole (p : Pad) (r : Role) : Option CapabilityTuple :=
  p.caps.find? (fun t => decide (t.role = r))

/-- Modelled from the spec: resolve every (pad, role) request pair;
`none` when some pad has no capability tuple for its requested role at
all (the `UnsupportedFunction` condition of spec section 4.2). -/
def resolveAll : List (Pad × Role) → Option (List Resolution)
  | [] => some []
  | (p, r) :: rest =>
    match findRole p r, resolveAll rest with
    | some t, some l => some (⟨p, r, t⟩ :: l)
    | _, _ => none

/-- Whether a list has a repeated element. -/
def hasDup [DecidableEq α] : List α → Bool
  | [] => false
  | x :: xs => decide (x ∈ xs) || hasDup xs

/-- The assignment recorded for one resolution. -/
def toAssignment (res : Resolution) : Assignment :=
  { pad := res.pad, role := res.role,
    altSelector := res.tuple.altSelector,
    inputSelect := res.tuple.inputSelect }

/-- Modelled from the spec: the batch contract
`bind(requests) -> Resolved Binding | BindingError` of spec section 4.2:
every pad must have a capability tuple for its requested role
(`UnsupportedFunction` otherwise), all resolved tuples must share one
module-instance (`ModuleMismatch` otherwise), no two pads may claim the
same role (`DuplicateRole` otherwise), and every required role must be
assigned a pad (`IncompleteBinding` otherwise). -/
def bindRequest (requiredRoles : List Role) (requests : List (Pad × Role)) :
    Except BindingError ResolvedBinding :=
  match resolveAll requests with
  | none => .error .UnsupportedFunction
  | some [] => .error .IncompleteBinding
  | some (first :: rest) =>
    if rest.any (fun res =>
        decide (res.tuple.moduleInstance ≠ first.tuple.moduleInstance)) then
      .error .ModuleMismatch
    else if hasDup (requests.map Prod.snd) then
      .error .DuplicateRole
    else if requiredRoles.any
        (fun r => decide (r ∉ requests.map Prod.snd)) then
      .error .IncompleteBinding
    else
      .ok { moduleInstance := first.tuple.moduleInstance,
            assignments := (first :: rest).map toAssignment }

/-- Modelled from the spec: the failure of the input-select resolver
(spec section 4.3). -/
inductive ResolveError where
  | NotSourceable
deriving DecidableEq, Repr

/-- Position of the first occurrence of a pad in a candidate source-pad
list; the encoded daisy-chain register value (spec section 4.3). -/
def selectValue : List PadId → PadId → Option Nat
  | [], _ => none
  | q :: qs, p => if q = p then some 0 else (selectValue qs p).map (· + 1)

/-- Modelled from the spec: the input-select resolver
`resolve_input(module-instance, role, chosen-pad)` of spec section 4.3,
over a static candidate-source-pad table `sources`: the chosen pad must
appear in the candidate list for (module-instance, role) and its encoded
position is the register value; `NotSourceable` otherwise. -/
def resolveInput (sources : ModuleInstance → Role → List PadId)
    (m : ModuleInstance) (r : Role) (p : PadId) : Except ResolveError Nat :=
  match selectValue (sources m r) p with
  | some v => .ok v
  | none => .error .NotSourceable

/-- Modelled from the spec: the per-pad claim state
(spec section 4.4 state machine). -/
inductive ClaimState where
  | unclaimed
  | claimed (m : ModuleInstance) (r : Role)
deriving DecidableEq, Repr

/-- Kind of memory-mapped register touched by the register programmer
(spec section 4.4: alternate-function selector, electrical pad
configuration, input-select register). -/
inductive WriteKind where
  | muxCtl
  | padCtl
  | inputSelectReg
deriving DecidableEq, Repr

/-- One hardware register write performed by the register programmer. -/
structure RegisterWrite where
  pad : PadId
  kind : WriteKind
  value : Nat
deriving DecidableEq, Repr

/-- Modelled from the spec: the mutable system state the register
programmer acts on: each pad's claim state and the log of hardware
register writes performed so far. -/
structure State where
  claims : PadId → ClaimState
  writes : List RegisterWrite

/-- Modelled from the spec: the state at registry construction; every
pad is `Unclaimed` and no register has been written. -/
def initState : State := { claims := fun _ => .unclaimed, writes := [] }

/-- Modelled from the spec: the register writes for one assignment of a
Resolved Binding: alternate-function selector, electrical configuration
(default settings), and the input-select register when the binding
carries a value for it (spec section 4.4). -/
def assignmentWrites (a : Assignment) : List RegisterWrite :=
  { pad := padId a.pad, kind := .muxCtl, value := a.altSelector } ::
  { pad := padId a.pad, kind := .padCtl, value := 0 } ::
  (match a.inputSelect with
   | some v => [{ pad := padId a.pad, kind := .inputSelectReg, value := v }]
   | none => [])

/-- Modelled from the spec: the register programmer
`commit(Resolved Binding)` of spec section 4.4: performs the writes for
every assignment and marks every referenced pad
`Claimed(module-instance, role)`. -/
def commit (b : ResolvedBinding) (st : State) : State :=
  { claims := fun q =>
      match b.assignments.find? (fun a => decide (padId a.pad = q)) with
      | some a => .claimed b.moduleInstance a.role
      | none => st.claims q,
    writes := st.writes ++ b.assignments.flatMap assignmentWrites }

/-- Modelled from the spec: the public surface (spec section 6): validate
a binding request with `bind` and, only on success, commit it; a failed
`bind` performs no hardware writes and leaves the state untouched. -/
def configure (requiredRoles : List Role) (requests : List (Pad × Role))
    (st : State) : State × Except BindingError Unit :=
  match bindRequest requiredRoles requests with
  | .error e => (st, .error e)
  | .ok b => (commit b st, .ok ())

/-- A core operation on the mutable state; `configure` is the only public
state-changing surface (spec section 6). -/
inductive Op where
  | configure (requiredRoles : List Role) (requests : List (Pad × Role))

/-- Effect of one core operation on the state. -/
def step (st : State) : Op → State
  | .configure rr reqs => (configure rr reqs st).1

/-- Effect of a sequence of core operations on the state. -/
def run (st : State) : List Op → State
  | [] => st
  | op :: ops => run (step st op) ops

/-- Modelled from the spec: invariant (a) of spec section 3 restricted to
one pad: a capability tuple's (module-instance, role) pair is unique
within the pad's descriptor for a given direction, analog roles being
direction-free. -/
def wellFormedPad (p : Pad) : Prop :=
  ∀ t1 ∈ p.caps, ∀ t2 ∈ p.caps,
    t1.role = t2.role → t1.moduleInstance = t2.moduleInstance →
    (isAnalog t1.role = true ∨ t1.direction = t2.direction) → t1 = t2

/-- Modelled from the spec: pad GPIO_AD_B0_12, a UART1 TX pad
(doc example of `src/imxrt1060/mod.rs` lines 39-42). -/
def GPIO_AD_B0_12 : Pad :=
  { bank := .adB0, index := 12,
    caps := [⟨⟨.uart, 1⟩, .tx, .output, 2, none⟩] }

/-- Modelled from the spec: pad GPIO_AD_B0_13, a UART1 RX pad
(doc example of `src/imxrt1060/mod.rs` lines 39-42 and 85-88). -/
def GPIO_AD_B0_13 : Pad :=
  { bank := .adB0, index := 13,
    caps := [⟨⟨.uart, 1⟩, .rx, .input, 2, none⟩] }

/-- Modelled from the spec: pad GPIO_AD_B1_02, a UART2 TX pad
(doc example of `src/imxrt1060/mod.rs` lines 85-88). -/
def GPIO_AD_B1_02 : Pad :=
  { bank := .adB1, index := 2,
    caps := [⟨⟨.uart, 2⟩, .tx, .output, 2, none⟩] }

/-- Modelled from the spec: pad GPIO_AD_B1_03, a UART2 RX pad whose input
line is multi-sourced and carries an input-select value. -/
def GPIO_AD_B1_03 : Pad :=
  { bank := .adB1, index := 3,
    caps := [⟨⟨.uart, 2⟩, .rx, .input, 2, some 1⟩] }

/-- Modelled from the spec: pad GPIO_AD_B0_10, a pad with no UART
capability (doc example of `src/imxrt1060/mod.rs` lines 62-65). -/
def GPIO_AD_B0_10 : Pad :=
  { bank := .adB0, index := 10,
    caps := [⟨⟨.pwm, 1⟩, .pwmOutput, .output, 1, none⟩] }

/-- Modelled from the spec: pad GPIO_AD_B0_11, a pad with no UART
capability (doc example of `src/imxrt1060/mod.rs` lines 62-65). -/
def GPIO_AD_B0_11 : Pad :=
  { bank := .adB0, index := 11,
    caps := [⟨⟨.adc, 1⟩, .analogChannel, .input, 5, none⟩] }

/-- Modelled from the spec: the static candidate-source-pad table of the
`lpuart` daisy-chain registers: the UART2 RX internal line can be sourced
from two physical pads (spec section 4.3). -/
def uartInputSources (m : ModuleInstance) (r : Role) : List PadId :=
  if m = ⟨.uart, 2⟩ then
    if r = .rx then [(.sdB1, 10), (.adB1, 3)] else []
  else []

/-- The Resolved Binding produced for the UART1 TX/RX pair of the doc
example of `src/imxrt1060/mod.rs` lines 39-42. -/
def uartBinding : ResolvedBinding :=
  { moduleInstance := ⟨.uart, 1⟩,
    assignments := [⟨GPIO_AD_B0_12, .tx, 2, none⟩,
                    ⟨GPIO_AD_B0_13, .rx, 2, none⟩] }

theorem find_eq_of_mem_unique {α : Type} (p : α → Bool) (l : List α) (a : α)
    (ha : a ∈ l) (hpa : p a = true)
    (huniq : ∀ b ∈ l, p b = true → b = a) :
    l.find? p = some a := by
  induction l with
  | nil => cases ha
  | cons x xs ih =>
    by_cases hx : p x = true
    · have hxa : x = a := huniq x (List.mem_cons_self x xs) hx
      rw [List.find?_cons_of_pos _ hx, hxa]
    · have hax : a ∈ xs := by
        cases List.mem_cons.mp ha with
        | inl h => subst h; exact absurd hpa hx
        | inr h => exact h
      have hrec := ih hax (fun b hb hpb => huniq b (List.mem_cons_of_mem _ hb) hpb)
      rw [List.find?_cons_of_neg _ hx]
      exact hrec

theorem resolveAll_isSome (reqs : List (Pad × Role))
    (h : ∀ pr ∈ reqs, (findRole pr.1 pr.2).isSome = true) :
    ∃ l, resolveAll reqs = some l := by
  induction reqs with
  | nil => exact ⟨[], rfl⟩
  | cons q rest ih =>
    obtain ⟨p, r⟩ := q
    obtain ⟨t, ht⟩ := Option.isSome_iff_exists.mp (h (p, r) (List.mem_cons_self _ _))
    obtain ⟨l, hl⟩ := ih (fun q hq => h q (List.mem_cons_of_mem _ hq))
    exact ⟨⟨p, r, t⟩ :: l, by simp [resolveAll, ht, hl]⟩

theorem resolveAll_mem_requests (reqs : List (Pad × Role)) (l : List Resolution)
    (h : resolveAll reqs = some l) :
    ∀ pr ∈ reqs, ∃ res ∈ l, res.pad = pr.1 ∧ res.role = pr.2 ∧
      findRole pr.1 pr.2 = some res.tuple := by
  induction reqs generalizing l with
  | nil => intro pr hpr; cases hpr
  | cons q rest ih =>
    obtain ⟨p, r⟩ := q
    cases hf : findRole p r with
    | none => simp [resolveAll, hf] at h
    | some t =>
      cases hr : resolveAll rest with
      | none => simp [resolveAll, hf, hr] at h
      | some l' =>
        have hcons : l = ⟨p, r, t⟩ :: l' := by
          simp [resolveAll, hf, hr] at h
          exact h.symm
        subst hcons
        intro pr hpr
        cases List.mem_cons.mp hpr with
        | inl hh =>
          subst hh
          exact ⟨⟨p, r, t⟩, List.mem_cons_self _ _, rfl, rfl, hf⟩
        | inr hh =>
          obtain ⟨res, hres, h1, h2, h3⟩ := ih l' hr pr hh
          exact ⟨res, List.mem_cons_of_mem _ hres, h1, h2, h3⟩

theorem resolveAll_eq_none (reqs : List (Pad × Role)) (p : Pad) (r : Role)
    (hmem : (p, r) ∈ reqs) (hnone : findRole p r = none) :
    resolveAll reqs = none := by
  induction reqs with
  | nil => cases hmem
  | cons q rest ih =>
    obtain ⟨p', r'⟩ := q
    cases List.mem_cons.mp hmem with
    | inl h =>
      obtain ⟨hp, hr⟩ := Prod.mk.injEq .. ▸ h
      subst hp; subst hr
      simp [resolveAll, hnone]
    | inr h =>
      cases hf : findRole p' r' <;> simp [resolveAll, hf, ih h]

/-- C9: the set of module-kinds supported by the pad capability registry
is exactly the six peripheral families UART, I2C, SPI, PWM,
audio-serial-interface and analog-to-digital, realized in code as the
`lpuart`, `lpi2c`, `lpspi`, `flexpwm`, `sai` and `adc` modules of
`src/imxrt1060/mod.rs`, and no others. -/
theorem moduleKinds_exactly_six :
    (∀ k : ModuleKind, k ∈ allModuleKinds) ∧
    allModuleKinds.Nodup ∧
    allModuleKinds.map moduleName =
      ["lpuart", "lpi2c", "lpspi", "flexpwm", "sai", "adc"] := by
  refine ⟨fun k => ?_, by decide, by decide⟩
  cases k <;> decide

/-- C10: in the base-address table of `src/imxrt1060/mod.rs`, every
bank's pad-configuration base equals its mux base plus 0x1F0, every
address fits in 32 bits and is 4-byte aligned, and the mux bases are
strictly increasing in source order. -/
theorem bases_table_layout :
    (bases.all fun nb =>
      decide (nb.2.cfg = nb.2.mux + 0x1F0) &&
      decide (nb.2.mux < 2 ^ 32) && decide (nb.2.cfg < 2 ^ 32) &&
      decide (nb.2.mux % 4 = 0) && decide (nb.2.cfg % 4 = 0)) = true ∧
    List.Pairwise (· < ·) (bases.map fun nb => nb.2.mux) := by
  constructor
  · decide
  · decide

/-- C1: for every pad and every capability tuple registered in the pad's
descriptor, the matcher called with that tuple's role, module-instance
and direction returns exactly that tuple, provided the descriptor
satisfies the registry's uniqueness invariant. -/
theorem match_returns_registered_tuple (p : Pad) (t : CapabilityTuple)
    (hwf : wellFormedPad p) (hmem : t ∈ p.caps) :
    matchCap p t.role t.moduleInstance t.direction = some t := by
  apply find_eq_of_mem_unique _ _ _ hmem
  · simp [capMatches]
  · intro b hb hpb
    simp only [capMatches, Bool.and_eq_true, Bool.or_eq_true,
      decide_eq_true_eq] at hpb
    obtain ⟨⟨h1, h2⟩, h3⟩ := hpb
    apply hwf b hb t hmem h1 h2
    cases h3 with
    | inl h => exact Or.inl (h1 ▸ h)
    | inr h => exact Or.inr h

/-- Witness for C1 at pad GPIO_AD_B0_12 and its UART1-TX tuple. -/
theorem match_returns_registered_tuple_witness :
    wellFormedPad GPIO_AD_B0_12 ∧
    (⟨⟨.uart, 1⟩, .tx, .output, 2, none⟩ : CapabilityTuple) ∈
      GPIO_AD_B0_12.caps ∧
    matchCap GPIO_AD_B0_12 .tx ⟨.uart, 1⟩ .output =
      some ⟨⟨.uart, 1⟩, .tx, .output, 2, none⟩ :=
  ⟨by unfold wellFormedPad; decide, by decide,
   match_returns_registered_tuple GPIO_AD_B0_12
     ⟨⟨.uart, 1⟩, .tx, .output, 2, none⟩
     (by unfold wellFormedPad; decide) (by decide)⟩

/-- C2: when no capability tuple of a pad has the requested role, the
matcher returns `NoMatch` for every module-instance and direction, and
any bind request containing that (pad, role) pair fails with
`UnsupportedFunction`. -/
theorem match_noMatch_unsupported (p : Pad) (r : Role)
    (h : ∀ t ∈ p.caps, t.role ≠ r) :
    (∀ m d, matchCap p r m d = none) ∧
    (∀ rr reqs, (p, r) ∈ reqs →
      bindRequest rr reqs = .error .UnsupportedFunction) := by
  have hfr : findRole p r = none := by
    rw [findRole, List.find?_eq_none]
    intro t ht
    simpa using h t ht
  constructor
  · intro m d
    rw [matchCap, List.find?_eq_none]
    intro t ht hc
    simp only [capMatches, Bool.and_eq_true, decide_eq_true_eq] at hc
    exact h t ht hc.1.1
  · intro rr reqs hmem
    have hnone := resolveAll_eq_none reqs p r hmem hfr
    simp [bindRequest, hnone]

/-- Witness for C2 at pad GPIO_AD_B0_10, which has no RX capability. -/
theorem match_noMatch_unsupported_witness :
    (∀ t ∈ GPIO_AD_B0_10.caps, t.role ≠ Role.rx) ∧
    bindRequest [Role.tx, Role.rx]
      [(GPIO_AD_B0_12, Role.tx), (GPIO_AD_B0_10, Role.rx)] =
      .error .UnsupportedFunction :=
  ⟨by decide,
   (match_noMatch_unsupported GPIO_AD_B0_10 Role.rx (by decide)).2
     [Role.tx, Role.rx] _ (by decide)⟩

/-- C3: a binding request in which every pad resolves and two pads
resolve to capability tuples with different module-instances of the same
module-kind fails with `ModuleMismatch`. -/
theorem bind_module_mismatch (rr : List Role) (reqs : List (Pad × Role))
    (hall : ∀ pr ∈ reqs, (findRole pr.1 pr.2).isSome = true)
    (pr1 pr2 : Pad × Role) (t1 t2 : CapabilityTuple)
    (h1 : pr1 ∈ reqs) (h2 : pr2 ∈ reqs)
    (hf1 : findRole pr1.1 pr1.2 = some t1)
    (hf2 : findRole pr2.1 pr2.2 = some t2)
    (_hkind : t1.moduleInstance.kind = t2.moduleInstance.kind)
    (hne : t1.moduleInstance ≠ t2.moduleInstance) :
    bindRequest rr reqs = .error .ModuleMismatch := by
  obtain ⟨l, hl⟩ := resolveAll_isSome reqs hall
  obtain ⟨res1, hres1, -, -, hft1⟩ := resolveAll_mem_requests reqs l hl pr1 h1
  obtain ⟨res2, hres2, -, -, hft2⟩ := resolveAll_mem_requests reqs l hl pr2 h2
  have e1 : res1.tuple = t1 := Option.some.inj (hft1.symm.trans hf1)
  have e2 : res2.tuple = t2 := Option.some.inj (hft2.symm.trans hf2)
  cases l with
  | nil => exact absurd hres1 (List.not_mem_nil res1)
  | cons first rest =>
    have hany : rest.any (fun res =>
        decide (res.tuple.moduleInstance ≠ first.tuple.moduleInstance)) =
        true := by
      by_cases hc : first.tuple.moduleInstance = t1.moduleInstance
      · have hne2 : res2.tuple.moduleInstance ≠ first.tuple.moduleInstance := by
          rw [e2, hc]
          intro hh
          exact hne hh.symm
        have hmem2 : res2 ∈ rest := by
          cases List.mem_cons.mp hres2 with
          | inl hh => rw [hh] at hne2; exact absurd rfl hne2
          | inr hh => exact hh
        exact List.any_eq_true.mpr
          ⟨res2, hmem2, by simp only [decide_eq_true_eq]; exact hne2⟩
      · have hne1 : res1.tuple.moduleInstance ≠ first.tuple.moduleInstance := by
          rw [e1]
          intro hh
          exact hc hh.symm
        have hmem1 : res1 ∈ rest := by
          cases List.mem_cons.mp hres1 with
          | inl hh => rw [hh] at hne1; exact absurd rfl hne1
          | inr hh => exact hh
        exact List.any_eq_true.mpr
          ⟨res1, hmem1, by simp only [decide_eq_true_eq]; exact hne1⟩
    obtain ⟨res, hmemres, hresne⟩ := List.any_eq_true.mp hany
    simp [bindRequest, hl]
    intro hcontra
    exact absurd (hcontra res hmemres) (of_decide_eq_true hresne)

/-- Witness for C3: a UART2 TX pad together with a UART1 RX pad. -/
theorem bind_module_mismatch_witness :
    (∀ pr ∈ ([(GPIO_AD_B1_02, Role.tx), (GPIO_AD_B0_13, Role.rx)] :
        List (Pad × Role)), (findRole pr.1 pr.2).isSome = true) ∧
    bindRequest [Role.tx, Role.rx]
      [(GPIO_AD_B1_02, Role.tx), (GPIO_AD_B0_13, Role.rx)] =
      .error .ModuleMismatch :=
  ⟨by decide,
   bind_module_mismatch [Role.tx, Role.rx]
     [(GPIO_AD_B1_02, Role.tx), (GPIO_AD_B0_13, Role.rx)] (by decide)
     (GPIO_AD_B1_02, Role.tx) (GPIO_AD_B0_13, Role.rx)
     ⟨⟨.uart, 2⟩, .tx, .output, 2, none⟩ ⟨⟨.uart, 1⟩, .rx, .input, 2, none⟩
     (by decide) (by decide) (by decide) (by decide) (by decide) (by decide)⟩

/-- C4: a binding request supplying one pad resolving to a UART1-TX
capability tuple and one pad resolving to a UART1-RX capability tuple,
against the required role set TX and RX, succeeds and the Resolved
Binding references module-instance UART1. -/
theorem bind_uart_pair (pa pb : Pad) (t1 t2 : CapabilityTuple)
    (hfa : findRole pa Role.tx = some t1)
    (hfb : findRole pb Role.rx = some t2)
    (hm1 : t1.moduleInstance = ⟨.uart, 1⟩)
    (hm2 : t2.moduleInstance = ⟨.uart, 1⟩) :
    ∃ b, bindRequest [Role.tx, Role.rx] [(pa, Role.tx), (pb, Role.rx)] =
      .ok b ∧ b.moduleInstance = ⟨.uart, 1⟩ := by
  have hres : resolveAll [(pa, Role.tx), (pb, Role.rx)] =
      some [⟨pa, Role.tx, t1⟩, ⟨pb, Role.rx, t2⟩] := by
    simp [resolveAll, hfa, hfb]
  have hb : bindRequest [Role.tx, Role.rx] [(pa, Role.tx), (pb, Role.rx)] =
      .ok { moduleInstance := t1.moduleInstance,
            assignments := [toAssignment ⟨pa, Role.tx, t1⟩,
                            toAssignment ⟨pb, Role.rx, t2⟩] } := by
    simp [bindRequest, hres, hasDup, hm1, hm2]
  exact ⟨_, hb, hm1⟩

/-- Witness for C4 at the documented UART1 pair GPIO_AD_B0_12 and
GPIO_AD_B0_13. -/
theorem bind_uart_pair_witness :
    findRole GPIO_AD_B0_12 Role.tx =
      some ⟨⟨.uart, 1⟩, .tx, .output, 2, none⟩ ∧
    findRole GPIO_AD_B0_13 Role.rx =
      some ⟨⟨.uart, 1⟩, .rx, .input, 2, none⟩ ∧
    ∃ b, bindRequest [Role.tx, Role.rx]
      [(GPIO_AD_B0_12, Role.tx), (GPIO_AD_B0_13, Role.rx)] = .ok b ∧
      b.moduleInstance = ⟨.uart, 1⟩ :=
  ⟨by decide, by decide,
   bind_uart_pair GPIO_AD_B0_12 GPIO_AD_B0_13
     ⟨⟨.uart, 1⟩, .tx, .output, 2, none⟩ ⟨⟨.uart, 1⟩, .rx, .input, 2, none⟩
     (by decide) (by decide) (by decide) (by decide)⟩

theorem selectValue_eq_none_iff (l : List PadId) (p : PadId) :
    selectValue l p = none ↔ p ∉ l := by
  induction l with
  | nil => simp [selectValue]
  | cons q qs ih =>
    by_cases h : q = p
    · simp [selectValue, h]
    · have h' : ¬ p = q := fun hh => h hh.symm
      simp [selectValue, h, h', ih, Option.map_eq_none']

theorem selectValue_index (l : List PadId) (p : PadId) (v : Nat)
    (h : selectValue l p = some v) :
    l[v]? = some p ∧ ∀ i, i < v → l[i]? ≠ some p := by
  induction l generalizing v with
  | nil => simp [selectValue] at h
  | cons q qs ih =>
    by_cases hq : q = p
    · simp only [selectValue] at h
      rw [if_pos hq] at h
      have h0 := Option.some.inj h
      subst h0
      subst hq
      exact ⟨by simp, fun i hi => absurd hi (Nat.not_lt_zero i)⟩
    · simp only [selectValue] at h
      rw [if_neg hq] at h
      obtain ⟨w, hw, hv⟩ := Option.map_eq_some'.mp h
      subst hv
      obtain ⟨ih1, ih2⟩ := ih w hw
      constructor
      · simpa using ih1
      · intro i hi
        cases i with
        | zero =>
          simp only [List.getElem?_cons_zero]
          intro hc
          exact hq (Option.some.inj hc)
        | succ j =>
          have hj : j < w := Nat.lt_of_succ_lt_succ hi
          simpa using ih2 j hj

/-- C5: the input-select resolver fails with `NotSourceable` exactly when
the chosen pad is absent from the static candidate-source list for the
(module-instance, role) pair; for a pad in the list it returns the pad's
position (first occurrence) in that list, and repeated calls with the
same arguments return the same value. -/
theorem resolveInput_spec (sources : ModuleInstance → Role → List PadId)
    (m : ModuleInstance) (r : Role) (p : PadId) :
    (resolveInput sources m r p = .error .NotSourceable ↔
      p ∉ sources m r) ∧
    (p ∈ sources m r → ∃ v, resolveInput sources m r p = .ok v ∧
      (sources m r)[v]? = some p ∧
      ∀ i, i < v → (sources m r)[i]? ≠ some p) ∧
    resolveInput sources m r p = resolveInput sources m r p := by
  refine ⟨?_, ?_, rfl⟩
  · cases hs : selectValue (sources m r) p with
    | none =>
      simp [resolveInput, hs, (selectValue_eq_none_iff _ _).mp hs]
    | some v =>
      have hp : p ∈ sources m r := by
        by_contra hc
        rw [← selectValue_eq_none_iff (sources m r) p] at hc
        rw [hc] at hs
        cases hs
      simp [resolveInput, hs, hp]
  · intro hp
    cases hs : selectValue (sources m r) p with
    | none => exact absurd hp ((selectValue_eq_none_iff _ _).mp hs)
    | some v =>
      obtain ⟨h1, h2⟩ := selectValue_index _ _ _ hs
      exact ⟨v, by simp [resolveInput, hs], h1, h2⟩

/-- Witness for C5 on the UART2 RX candidate-source list: GPIO_AD_B1_03
is the second candidate, while an EMC pad is not sourceable. -/
theorem resolveInput_spec_witness :
    ((Bank.adB1, 3) ∈ uartInputSources ⟨.uart, 2⟩ .rx ∧
      ∃ v, resolveInput uartInputSources ⟨.uart, 2⟩ .rx (Bank.adB1, 3) =
          .ok v ∧
        (uartInputSources ⟨.uart, 2⟩ .rx)[v]? = some (Bank.adB1, 3) ∧
        ∀ i, i < v →
          (uartInputSources ⟨.uart, 2⟩ .rx)[i]? ≠ some (Bank.adB1, 3)) ∧
    (resolveInput uartInputSources ⟨.uart, 2⟩ .rx (Bank.emc, 0) =
        .error .NotSourceable ↔
      (Bank.emc, 0) ∉ uartInputSources ⟨.uart, 2⟩ .rx) :=
  ⟨⟨by decide,
    (resolveInput_spec uartInputSources ⟨.uart, 2⟩ .rx
      (Bank.adB1, 3)).2.1 (by decide)⟩,
   (resolveInput_spec uartInputSources ⟨.uart, 2⟩ .rx (Bank.emc, 0)).1⟩

/-- C6: whenever `bind` rejects a request, `configure` performs no
hardware write and leaves every pad's claim state unchanged. -/
theorem bind_failure_atomic (rr : List Role) (reqs : List (Pad × Role))
    (st : State) (e : BindingError)
    (h : bindRequest rr reqs = .error e) :
    configure rr reqs st = (st, .error e) ∧
    (configure rr reqs st).1.writes = st.writes ∧
    ∀ q, (configure rr reqs st).1.claims q = st.claims q := by
  have hc : configure rr reqs st = (st, .error e) := by
    simp [configure, h]
  exact ⟨hc, by rw [hc], fun q => by rw [hc]⟩

/-- Witness for C6 on a request whose pads carry no UART capability. -/
theorem bind_failure_atomic_witness :
    bindRequest [Role.tx, Role.rx]
      [(GPIO_AD_B0_10, Role.tx), (GPIO_AD_B0_11, Role.rx)] =
      .error .UnsupportedFunction ∧
    configure [Role.tx, Role.rx]
      [(GPIO_AD_B0_10, Role.tx), (GPIO_AD_B0_11, Role.rx)] initState =
      (initState, .error .UnsupportedFunction) :=
  ⟨rfl,
   (bind_failure_atomic [Role.tx, Role.rx]
     [(GPIO_AD_B0_10, Role.tx), (GPIO_AD_B0_11, Role.rx)]
     initState .UnsupportedFunction rfl).1⟩

/-- C7: `bind` is a deterministic function of the static capability data
and the request: two evaluations on the same request agree, and the
accept/reject outcome of `configure` is independent of the mutable
state. -/
theorem bind_deterministic (rr : List Role) (reqs : List (Pad × Role)) :
    bindRequest rr reqs = bindRequest rr reqs ∧
    ∀ st st' : State,
      (configure rr reqs st).2 = (configure rr reqs st').2 := by
  refine ⟨rfl, fun st st' => ?_⟩
  cases h : bindRequest rr reqs <;> simp [configure, h]

theorem commit_claims_ne (b : ResolvedBinding) (st : State) (q : PadId)
    (h : st.claims q ≠ .unclaimed) :
    (commit b st).claims q ≠ .unclaimed := by
  show (match b.assignments.find? (fun a => decide (padId a.pad = q)) with
    | some a => ClaimState.claimed b.moduleInstance a.role
    | none => st.claims q) ≠ .unclaimed
  cases b.assignments.find? (fun a => decide (padId a.pad = q)) with
  | none => exact h
  | some a => simp

theorem step_claims_ne (st : State) (op : Op) (q : PadId)
    (h : st.claims q ≠ .unclaimed) :
    (step st op).claims q ≠ .unclaimed := by
  cases op with
  | configure rr reqs =>
    cases hb : bindRequest rr reqs with
    | error e => simpa [step, configure, hb] using h
    | ok b => simpa [step, configure, hb] using commit_claims_ne b st q h

/-- C8: every pad starts `Unclaimed` at registry construction, a
successful `commit` transitions each pad referenced by the Resolved
Binding from `Unclaimed` to `Claimed(module-instance, role)`, and no
sequence of core operations ever transitions a pad from `Claimed` back
to `Unclaimed`. -/
theorem claim_state_machine :
    (∀ q, initState.claims q = .unclaimed) ∧
    (∀ (b : ResolvedBinding) (st : State),
      (b.assignments.map fun a => padId a.pad).Nodup →
      ∀ a ∈ b.assignments, st.claims (padId a.pad) = .unclaimed →
        (commit b st).claims (padId a.pad) =
          .claimed b.moduleInstance a.role) ∧
    (∀ (st : State) (ops : List Op) (q : PadId),
      st.claims q ≠ .unclaimed → (run st ops).claims q ≠ .unclaimed) := by
  refine ⟨fun q => rfl, ?_, ?_⟩
  · intro b st hnd a ha _
    have hf : b.assignments.find?
        (fun a' => decide (padId a'.pad = padId a.pad)) = some a := by
      apply find_eq_of_mem_unique _ _ _ ha (by simp)
      intro a' ha' hpa'
      exact List.inj_on_of_nodup_map hnd ha' ha (of_decide_eq_true hpa')
    show (match b.assignments.find?
        (fun a' => decide (padId a'.pad = padId a.pad)) with
      | some a' => ClaimState.claimed b.moduleInstance a'.role
      | none => st.claims (padId a.pad)) = .claimed b.moduleInstance a.role
    rw [hf]
  · intro st ops q h
    induction ops generalizing st with
    | nil => exact h
    | cons op rest ih => exact ih (step st op) (step_claims_ne st op q h)

/-- Witness for C8: committing the UART1 binding claims GPIO_AD_B0_12
for the TX role. -/
theorem claim_state_machine_witness :
    ((uartBinding.assignments.map fun a => padId a.pad).Nodup ∧
      (⟨GPIO_AD_B0_12, Role.tx, 2, none⟩ : Assignment) ∈
        uartBinding.assignments ∧
      initState.claims (padId GPIO_AD_B0_12) = .unclaimed) ∧
    (commit uartBinding initState).claims (padId GPIO_AD_B0_12) =
      .claimed uartBinding.moduleInstance Role.tx :=
  ⟨⟨by decide, by decide, rfl⟩,
   claim_state_machine.2.1 uartBinding initState (by decide)
     ⟨GPIO_AD_B0_12, Role.tx, 2, none⟩ (by decide) rfl⟩
